import Mathlib

/-!
# Verification of `main.py` (dependabot-paused-report)

Shallow embedding of the repository's single source file `src/main.py`.

The program is a GitHub REST client: `make_request` performs one logical
query (possibly many physical HTTP requests due to pagination and
rate-limit retries), and a driver (`main`) scans organizations and
repositories, accumulating the names of repositories whose Dependabot
automated security fixes are paused.

Modelling conventions:

* A physical HTTP exchange is a `Response` (status, the three headers the
  code reads, decoded JSON body) or a transport failure (`NetResp.netErr`,
  standing for `requests.exceptions.RequestException`).
* The network is a server `srv : Nat → NetResp`: the k-th physical GET
  issued by the client receives `srv k`.  The URLs the client requests and
  the sleeps it performs are recorded in the output (`FetchOut`) so that
  theorems can speak about "re-issues the same request" and about sleep
  durations.
* Loops are given fuel (one unit per loop iteration); running out of fuel
  yields `Failure.outOfFuel`.  A run that yields `outOfFuel` for every
  fuel value models non-termination.
* Python exceptions that `main.py` does not catch are explicit `Failure`
  constructors: `sys.exit(1)` (from `raise_for_status` / transport errors,
  which the code catches and converts to `sys.exit(1)`) is `exit1`;
  `NameError` (the unassigned `last_page`), `AttributeError`
  (`re.match(...)` returning `None` and then `.group(1)`), `ValueError`
  (`str.index` with no occurrence) and `TypeError` keep their names.
* Python string operations used by the code (`in`, `str.index`, slicing,
  `str.split`, `str.startswith`, and the regexes `.*page=([0-9]+)` /
  `.*page=(\d+)`) are modelled character-exactly over `List Char`; the
  regex class `\d` is modelled as an ASCII digit (URLs are ASCII).
* The wall clock (`time.time()`) is an `Int` (seconds); `sleep(t)`
  advances the clock by `t`.  Only sleeps advance the clock, which is the
  standard idealization for reasoning about the sleep-duration formula.
-/

set_option autoImplicit false

namespace DepPaused

/-- Decoded JSON value, as produced by `response.json()`. -/
inductive JVal where
  | null
  | bool (b : Bool)
  | num (n : Int)
  | str (s : String)
  | arr (xs : List JVal)
  | dict (fs : List (String × JVal))

/-- Failure modes of the modelled program.  `exit1` is `sys.exit(1)`;
`nameError`, `attrError`, `valueError` and `typeError` are the uncaught
Python exceptions the code can raise; `outOfFuel` marks exhaustion of the
loop fuel (modelling non-termination when it holds for all fuel). -/
inductive Failure where
  | exit1
  | nameError
  | attrError
  | valueError
  | typeError
  | outOfFuel
deriving DecidableEq, Repr

/-! ## Python string primitives -/

/-- `List`-level prefix test (used to model `str.startswith` and as a
building block for substring containment and the regex model). -/
def isPrefList : List Char → List Char → Bool
  | [], _ => true
  | _ :: _, [] => false
  | a :: as, b :: bs => a = b && isPrefList as bs

/-- Python's `pat in s` substring containment, on char lists. -/
def hasSubList (pat : List Char) : List Char → Bool
  | [] => pat.isEmpty
  | c :: cs => isPrefList pat (c :: cs) || hasSubList pat cs

/-- Python's `pat in s` substring containment. -/
def hasSub (s pat : String) : Bool :=
  hasSubList pat.data s.data

/-- Python's `s.startswith(pre)`. -/
def startswith (s pre : String) : Bool :=
  isPrefList pre.data s.data

/-- First index of character `c` (Python `s.index(c)`; `none` models the
`ValueError` raised when `c` does not occur). -/
def pyIndexList (c : Char) : List Char → Option Nat
  | [] => none
  | d :: ds => if d = c then some 0 else (pyIndexList c ds).map (· + 1)

/-- Python `s.index(c)` (as an `Option`; `none` = `ValueError`). -/
def pyIndex (s : String) (c : Char) : Option Nat :=
  pyIndexList c s.data

/-- Python slice `s[a:b]` for `0 ≤ a, b` (clamping, empty when `b ≤ a`). -/
def pySlice (s : String) (a b : Nat) : String :=
  ⟨(s.data.drop a).take (b - a)⟩

/-- First occurrence of `sep` in a char list: the part before it and the
part after it. -/
def splitFirst (sep : List Char) : List Char → Option (List Char × List Char)
  | [] => none
  | c :: cs =>
    if isPrefList sep (c :: cs) then some ([], (c :: cs).drop sep.length)
    else
      match splitFirst sep cs with
      | none => none
      | some (pre, post) => some (c :: pre, post)

/-- Worker for `splitOnPy`; the fuel (≥ input length + 1 suffices, each
round consuming at least one character for a non-empty separator) makes
the recursion structural. -/
def splitOnAux (sep : List Char) : Nat → List Char → List (List Char)
  | 0, l => [l]
  | fuel + 1, l =>
    match splitFirst sep l with
    | none => [l]
    | some (pre, post) => pre :: splitOnAux sep fuel post

/-- Python's `s.split(sep)` for a non-empty separator: split at each
non-overlapping occurrence, left to right, keeping empty parts
(`"".split(", ") == [""]`). -/
def splitOnPy (s sep : String) : List String :=
  (splitOnAux sep.data (s.data.length + 1) s.data).map (fun l => ⟨l⟩)

/-! ## The regex `.*page=([0-9]+)` / `.*page=(\d+)` under `re.match`

`re.match` anchors at the start; the greedy `.*` (which does not cross a
newline) backtracks from the right, so the match succeeds iff `page=`
followed by at least one digit occurs at a position whose prefix is
newline-free, and the captured group is the maximal digit run after the
rightmost such occurrence. -/

/-- Attempt `page=([0-9]+)` at the head of the list; returns the captured
digit run. -/
def pageHere (cs : List Char) : Option (List Char) :=
  if isPrefList ("page=".data) cs then
    let ds := (cs.drop 5).takeWhile Char.isDigit
    if ds.isEmpty then none else some ds
  else none

/-- `re.match(r'.*page=([0-9]+)', s)`'s captured group over the char list:
rightmost occurrence wins (greedy `.*`), positions beyond a newline are
unreachable (`.` does not match a newline). -/
def pageMatchList : List Char → Option (List Char)
  | [] => none
  | c :: cs =>
    match (if c = '\n' then none else pageMatchList cs) with
    | some g => some g
    | none => pageHere (c :: cs)

/-- `re.match(r'.*page=([0-9]+)', s)`: `none` models a failed match (so a
subsequent `.group(1)` raises `AttributeError`); `some g` is `group(1)`. -/
def pageMatch (s : String) : Option String :=
  (pageMatchList s.data).map (fun l => ⟨l⟩)

/-! ## Link-header processing (`main.py` lines 78–91)

```
links = link_header.split(', ')
url = None
for link in links:
    if 'rel="last"' in link:
        last_page = re.match(r'.*page=([0-9]+)', link).group(1)
for link in links:
    if 'rel="next"' in link:
        url = link[link.index('<') + 1:link.index('>')]
        current_page = re.match(r'.*page=(\d+)', url).group(1)
        print(f'  ... current_page/last_page ...')
```

`last_page` is a plain local variable of `make_request` that survives
across iterations of the outer `while url:` loop; it is modelled as an
`Option String` threaded through the page loop, `none` meaning "never
assigned" (reading it then raises `NameError`). -/

/-- The first `for link in links` loop: every part containing `rel="last"`
re-assigns `last_page` from the page regex (`AttributeError` when the
regex does not match). -/
def processLast : List String → Option String → Except Failure (Option String)
  | [], lp => .ok lp
  | l :: ls, lp =>
    if hasSub l "rel=\"last\"" then
      match pageMatch l with
      | none => .error .attrError
      | some g => processLast ls (some g)
    else processLast ls lp

/-- The second `for link in links` loop: every part containing
`rel="next"` re-assigns `url` to the text between the first `<` and the
first `>` (`ValueError` when either is missing), runs the page regex on it
(`AttributeError` on failure), and prints a progress line that reads
`last_page` (`NameError` when it was never assigned). -/
def processNext : List String → Option String → Option String → Except Failure (Option String)
  | [], _, url => .ok url
  | l :: ls, lp, url =>
    if hasSub l "rel=\"next\"" then
      match pyIndex l '<' with
      | none => .error .valueError
      | some i =>
        match pyIndex l '>' with
        | none => .error .valueError
        | some j =>
          let u := pySlice l (i + 1) j
          match pageMatch u with
          | none => .error .attrError
          | some _ =>
            match lp with
            | none => .error .nameError
            | some _ => processNext ls lp (some u)
    else processNext ls lp url

/-- Both link loops on a raw `Link` header: returns the updated
`last_page` and the next-page URL (`none` when no `rel="next"` part). -/
def linkStep (lh : String) (lp : Option String) : Except Failure (Option String × Option String) :=
  match processLast (splitOnPy lh ", ") lp with
  | .error e => .error e
  | .ok lp' =>
    match processNext (splitOnPy lh ", ") lp' none with
    | .error e => .error e
    | .ok nxt => .ok (lp', nxt)

/-! ## Responses, the server, and the fetch loop (`make_request`) -/

/-- One HTTP response as `make_request` observes it: the status code, the
three headers the code reads (`X-RateLimit-Remaining` and
`X-RateLimit-Reset` already converted by `int(...)`, absent = `none`,
which the code defaults to `0`), the raw `Link` header, and the decoded
JSON body. -/
structure Response where
  status : Nat
  remaining : Option Int
  reset : Option Int
  link : Option String
  body : JVal

/-- Outcome of one physical `requests.get`: a response, or a raised
`requests.exceptions.RequestException` (timeout, DNS, reset, ...). -/
inductive NetResp where
  | ok (r : Response)
  | netErr (msg : String)

/-- Mutable context threaded through `make_request`: the physical request
counter (index into the server), the wall clock, and the recorded traces
of requested URLs and performed sleep durations. -/
structure St where
  k : Nat
  now : Int
  tr : List String
  sl : List Int

/-- Result of `make_request`: the returned value (or failure), plus the
URLs requested and the sleeps performed, in order. -/
structure FetchOut where
  result : Except Failure JVal
  urls : List String
  sleeps : List Int

/-- Outcome of the inner `while response.status_code == 403:` loop. -/
inductive Step403 where
  | denied
  | pass (r : Response)
  | fail (e : Failure)

/-- The inner rate-limit loop (`main.py` lines 52–68).  While the status
is 403: read `X-RateLimit-Remaining` (default 0); if zero, read
`X-RateLimit-Reset` (default 0), sleep `max(reset - time(), 0)` and GET
the same URL again; otherwise print the permission diagnostic and make
the logical query return `[]` (`denied`).  Fuel bounds the number of
re-issued GETs. -/
def resolve403 (srv : Nat → NetResp) : Nat → Response → String → St → Step403 × St
  | fuel, r, u, st =>
    if r.status = 403 then
      let remaining := r.remaining.getD 0
      if remaining = 0 then
        let reset := r.reset.getD 0
        let sleepT := max (reset - st.now) 0
        let st' : St := { st with now := st.now + sleepT, sl := st.sl ++ [sleepT] }
        match fuel with
        | 0 => (.fail .outOfFuel, st')
        | fuel' + 1 =>
          let st'' : St := { st' with k := st'.k + 1, tr := st'.tr ++ [u] }
          match srv st'.k with
          | .netErr _ => (.fail .exit1, st'')
          | .ok r' => resolve403 srv fuel' r' u st''
      else (.denied, st)
    else (.pass r, st)

/-- The outer `while url:` loop of `make_request` (lines 48–97).  Each
iteration GETs the current URL, resolves 403s, then: returns `[]` on 404;
`sys.exit(1)`s on any other 4xx/5xx (`raise_for_status` feeding the
`except RequestException` handler); returns the body immediately when it
is a JSON object; otherwise extends the accumulator with the list body
and follows the `rel="next"` link (stopping when the `Link` header is
absent or yields no next URL, or when the extracted URL is the empty
string — Python's `while url:` truthiness).  A transport error on any GET
is `sys.exit(1)`. -/
def fetchPages (srv : Nat → NetResp) :
    Nat → Option String → List JVal → Option String → St → FetchOut
  | fuel, url?, acc, lp, st =>
    match url? with
    | none => ⟨.ok (.arr acc), st.tr, st.sl⟩
    | some u =>
      if u = "" then ⟨.ok (.arr acc), st.tr, st.sl⟩
      else
        match fuel with
        | 0 => ⟨.error .outOfFuel, st.tr, st.sl⟩
        | fuel' + 1 =>
          let st1 : St := { st with k := st.k + 1, tr := st.tr ++ [u] }
          match srv st.k with
          | .netErr _ => ⟨.error .exit1, st1.tr, st1.sl⟩
          | .ok r =>
            match resolve403 srv fuel' r u st1 with
            | (.fail e, st2) => ⟨.error e, st2.tr, st2.sl⟩
            | (.denied, st2) => ⟨.ok (.arr []), st2.tr, st2.sl⟩
            | (.pass r', st2) =>
              if r'.status = 404 then ⟨.ok (.arr []), st2.tr, st2.sl⟩
              else if 400 ≤ r'.status ∧ r'.status < 600 then ⟨.error .exit1, st2.tr, st2.sl⟩
              else
                match r'.body with
                | .dict fs => ⟨.ok (.dict fs), st2.tr, st2.sl⟩
                | .arr items =>
                  match r'.link with
                  | none => ⟨.ok (.arr (acc ++ items)), st2.tr, st2.sl⟩
                  | some lh =>
                    match linkStep lh lp with
                    | .error e => ⟨.error e, st2.tr, st2.sl⟩
                    | .ok (lp', nxt) => fetchPages srv fuel' nxt (acc ++ items) lp' st2
                | _ => ⟨.error .typeError, st2.tr, st2.sl⟩

def API_BASE : String := "https://api.github.com"

/-- `make_request(endpoint)` against a server of physical responses,
starting the clock at `now0`.  (The `token` default argument and the
header dictionary do not influence control flow and live outside the
model; `custom_headers` is never passed by any caller.) -/
def make_request (srv : Nat → NetResp) (fuel : Nat) (endpoint : String) (now0 : Int) : FetchOut :=
  fetchPages srv fuel (some (API_BASE ++ endpoint)) [] none ⟨0, now0, [], []⟩

/-! ## Token loading (`get_token`, lines 30–38)

The credential comes from the environment variable
`PAUSED_DEPENDABOT_REPOS_TOKEN`; `os.getenv` yields `None` when absent
(modelled `none`).  `if not token:` also catches the empty string.  Note
that `get_token()` is the *default argument* of `make_request`, so it is
evaluated once at module import time — before `main` runs and before any
network request can be issued. -/
def get_token (env : Option String) : Except Failure String :=
  match env with
  | none => .error .exit1
  | some t =>
    if t = "" then .error .exit1
    else if startswith t "github_pat_" then .error .exit1
    else .ok t

/-! ## The report driver (`get_orgs`, `get_org_repos`,
`dependabot_is_paused`, `cleanup_results`, `main`, lines 99–152)

The driver issues one logical query at a time; it is modelled against a
logical oracle `fetch : String → Except Failure JVal` mapping an endpoint
to the value `make_request` returns for it (`make_request srv fuel ep now
|>.result` for that endpoint's server).  The endpoints the driver
requests are logged so that "no network call is made" is expressible. -/

/-- Python dict lookup on the modelled JSON object (keys are unique). -/
def jLookup (fs : List (String × JVal)) (key : String) : Option JVal :=
  (fs.find? (fun p => p.1 == key)).map (·.2)

/-- Python truthiness of a decoded JSON value (used by
`if dependabot_is_paused(org, repo):` and `if paused_repos:`). -/
def jTruthy : JVal → Bool
  | .null => false
  | .bool b => b
  | .num n => n != 0
  | .str s => s != ""
  | .arr xs => !xs.isEmpty
  | .dict fs => !fs.isEmpty

/-- Lines 114–117: given `make_request`'s returned value, the pause
status: `response['paused']` when the value is an object with a `paused`
key, otherwise `False`. -/
def paused_of : JVal → JVal
  | .dict fs =>
    match jLookup fs "paused" with
    | some v => v
    | none => .bool false
  | _ => .bool false

/-- `dependabot_is_paused(org, repo)` over the logical fetch oracle. -/
def dependabot_is_paused (fetch : String → Except Failure JVal)
    (org repo : String) : Except Failure JVal :=
  match fetch ("/repos/" ++ org ++ "/" ++ repo ++ "/automated-security-fixes") with
  | .error e => .error e
  | .ok r => .ok (paused_of r)

/-- `[item[key] for item in response]` restricted to the shapes the API
returns (a list of objects with a string field); a list item of another
shape, or a non-list response carrying data, raises (`TypeError` stands
for the `TypeError`/`KeyError` Python would raise). -/
def extractField (key : String) : JVal → Except Failure (List String)
  | .arr items =>
    items.foldr
      (fun it rest =>
        match it with
        | .dict fs =>
          match jLookup fs key with
          | some (.str s) =>
            match rest with
            | .error e => .error e
            | .ok l => .ok (s :: l)
          | _ => .error .typeError
        | _ => .error .typeError)
      (.ok [])
  | _ => .error .typeError

/-- `get_orgs()` (lines 99–105): fetch `/user/orgs`, extract the `login`
fields, and `sys.exit(1)` when the list is empty. -/
def get_orgs (fetch : String → Except Failure JVal) : Except Failure (List String) :=
  match fetch "/user/orgs" with
  | .error e => .error e
  | .ok r =>
    match extractField "login" r with
    | .error e => .error e
    | .ok orgs => if orgs.isEmpty then .error .exit1 else .ok orgs

/-- The malformed repos endpoint of `get_org_repos` (line 109), with the
second `?` reproduced literally. -/
def reposEndpoint (org : String) : String :=
  "/orgs/" ++ org ++ "/repos?type=all?per_page=100"

/-- The per-repo pause-status endpoint (line 113). -/
def pausedEndpoint (org repo : String) : String :=
  "/repos/" ++ org ++ "/" ++ repo ++ "/automated-security-fixes"

/-- The report: Python dict `org → list of paused repo names`, as an
insertion-ordered association list with unique keys. -/
abbrev Report := List (String × List String)

/-- Lines 144–146: `if not org in paused_repos: paused_repos[org] = []`
then `paused_repos[org].append(repo)`. -/
def dictAppend (pr : Report) (org repo : String) : Report :=
  if pr.any (fun p => p.1 == org) then
    pr.map (fun p => if p.1 == org then (p.1, p.2 ++ [repo]) else p)
  else pr ++ [(org, [repo])]

/-- `cleanup_results` (lines 119–124): drop every key bound to an empty
list (iterating over a copy of the keys and popping; on an assoc list
with unique keys this is a filter).  The `if paused_repos:` guard makes
the empty dict pass through unchanged, which the filter also does. -/
def cleanup_results (paused_repos : Report) : Report :=
  if paused_repos.isEmpty then paused_repos
  else paused_repos.filter (fun p => !p.2.isEmpty)

/-- The inner loop of `main` (lines 142–147): query each repo's pause
status in order, accumulating paused repos; a fatal query aborts.  The
first component is the log of endpoints requested so far. -/
def scanRepos (fetch : String → Except Failure JVal) (org : String) :
    List String → Report → List String → List String × Except Failure Report
  | [], pr, calls => (calls, .ok pr)
  | repo :: rest, pr, calls =>
    let calls' := calls ++ [pausedEndpoint org repo]
    match dependabot_is_paused fetch org repo with
    | .error e => (calls', .error e)
    | .ok v =>
      let pr' := if jTruthy v then dictAppend pr org repo else pr
      scanRepos fetch org rest pr' calls'

/-- The outer loop of `main` (lines 139–149): list each org's repos, then
scan them. -/
def scanOrgs (fetch : String → Except Failure JVal) :
    List String → Report → List String → List String × Except Failure Report
  | [], pr, calls => (calls, .ok pr)
  | org :: rest, pr, calls =>
    let calls' := calls ++ [reposEndpoint org]
    match fetch (reposEndpoint org) with
    | .error e => (calls', .error e)
    | .ok r =>
      match extractField "name" r with
      | .error e => (calls', .error e)
      | .ok repos =>
        match scanRepos fetch org repos pr calls' with
        | (calls'', .error e) => (calls'', .error e)
        | (calls'', .ok pr') => scanOrgs fetch rest pr' calls''

/-- Observable outcome of a program run: the endpoints requested, the
files written (path and JSON content — `write_to_json` runs at most once,
at the very end), and the exit status (`ok ()` = exit code 0). -/
structure MainOut where
  calls : List String
  writes : List (String × Report)
  exit : Except Failure Unit

/-- Lines 134–137: `orgs = args.orgs if args.orgs else get_orgs()` —
Python truthiness, so an absent or empty `--orgs` falls back to org
discovery (which performs the `/user/orgs` query). -/
def pickOrgs (fetch : String → Except Failure JVal) (argOrgs : Option (List String)) :
    List String × Except Failure (List String) :=
  match argOrgs with
  | some l => if l.isEmpty then (["/user/orgs"], get_orgs fetch) else ([], .ok l)
  | none => (["/user/orgs"], get_orgs fetch)

/-- `main()` (lines 131–152): pick the orgs, scan, clean up, and write
the JSON file only when the cleaned report is non-empty. -/
def main_model (fetch : String → Except Failure JVal)
    (argOrgs : Option (List String)) (jsonPath : String) : MainOut :=
  match pickOrgs fetch argOrgs with
  | (calls, .error e) => ⟨calls, [], .error e⟩
  | (calls, .ok orgs) =>
    match scanOrgs fetch orgs [] calls with
    | (calls', .error e) => ⟨calls', [], .error e⟩
    | (calls', .ok pr) =>
      let pr' := cleanup_results pr
      if pr'.isEmpty then ⟨calls', [], .ok ()⟩
      else ⟨calls', [(jsonPath, pr')], .ok ()⟩

/-- The whole program: module import evaluates `make_request`'s default
argument `token=get_token()`, so a missing or fine-grained credential
kills the process before `main` — and before any network request. -/
def program_run (env : Option String) (fetch : String → Except Failure JVal)
    (argOrgs : Option (List String)) (jsonPath : String) : MainOut :=
  match get_token env with
  | .error e => ⟨[], [], .error e⟩
  | .ok _ => main_model fetch argOrgs jsonPath

/-! ## Specification-side descriptions used by the theorems -/

/-- Expected sleep durations for `m` consecutive rate-limited responses
with reset timestamps `rs 0, rs 1, …`, starting the clock at `now`: each
sleep is `max(reset - time(), 0)` and advances the clock by its length. -/
def rlSleeps : Nat → Int → (Nat → Int) → List Int
  | 0, _, _ => []
  | m + 1, now, rs =>
    max (rs 0 - now) 0 :: rlSleeps m (now + max (rs 0 - now) 0) (fun i => rs (i + 1))

/-- The clock value after the `rlSleeps` sleeps. -/
def rlNow : Nat → Int → (Nat → Int) → Int
  | 0, now, _ => now
  | m + 1, now, rs => rlNow m (now + max (rs 0 - now) 0) (fun i => rs (i + 1))

/-- `RlChain srv m k rs r rfin`: response `r` opens a run of `m`
rate-limited responses (status 403, zero remaining quota, reset
timestamps `rs 0, …, rs (m-1)`), the following GETs consuming
`srv k, srv (k+1), …`, after which response `rfin` (not a 403) arrives. -/
def RlChain (srv : Nat → NetResp) : Nat → Nat → (Nat → Int) → Response → Response → Prop
  | 0, _, _, r, rfin => r = rfin ∧ r.status ≠ 403
  | m + 1, k, rs, r, rfin =>
    r.status = 403 ∧ r.remaining = some 0 ∧ r.reset = some (rs 0) ∧
    ∃ r', srv k = .ok r' ∧ RlChain srv m (k + 1) (fun i => rs (i + 1)) r' rfin

/-- One page of a paginated list response: its items, the two rate-limit
headers (unread on a 200), the raw `Link` header, and the next-page URL
the header advertises (`none` on the final page). -/
structure PageSpec where
  items : List JVal
  rm : Option Int
  rs : Option Int
  lnk : Option String
  nxt : Option String

/-- `ChainOk srv k specs`: starting at physical request `k`, the server
serves the pages of `specs` in order, each page's `Link` header parsing
(by the code's own link loops, `linkStep`) to the next page's URL —
except the final page, whose header is absent or yields no `rel="next"`
URL. -/
def ChainOk (srv : Nat → NetResp) : Nat → List PageSpec → Prop
  | _, [] => True
  | k, s :: rest =>
    srv k = .ok ⟨200, s.rm, s.rs, s.lnk, .arr s.items⟩ ∧
    match rest with
    | [] =>
      (s.lnk = none ∧ s.nxt = none) ∨
      (∃ h, s.lnk = some h ∧ s.nxt = none ∧
        ∀ lp, ∃ lp2, linkStep h lp = .ok (lp2, none))
    | _ :: _ =>
      ∃ h u', s.lnk = some h ∧ s.nxt = some u' ∧ u' ≠ "" ∧
        (∀ lp, ∃ lp2, linkStep h lp = .ok (lp2, some u')) ∧
        ChainOk srv (k + 1) rest

/-- All items of a page chain, in server page order. -/
def chainItems (specs : List PageSpec) : List JVal :=
  (specs.map (·.items)).flatten

/-- The `rel="next"` URLs a page chain advertises, in order. -/
def chainUrls (specs : List PageSpec) : List String :=
  specs.filterMap (·.nxt)

/-- A `Link` header is benign for the progress-printing code when, if it
contains a `rel="next"` part, it also contains a `rel="last"` part on
which the page regex matches. -/
def HeaderOk (lh : String) : Prop :=
  (∃ l ∈ splitOnPy lh ", ", hasSub l "rel=\"next\"" = true) →
  ∃ l ∈ splitOnPy lh ", ", hasSub l "rel=\"last\"" = true ∧ pageMatch l ≠ none

/-! ## Concrete servers used by witnesses and counterexamples -/

/-- A server that always answers 404 (Dependabot disabled). -/
def srv404 : Nat → NetResp :=
  fun _ => .ok ⟨404, none, none, none, .null⟩

/-- A server answering 403 with nonzero remaining quota (SSO denial). -/
def srvDenied : Nat → NetResp :=
  fun _ => .ok ⟨403, some 42, none, none, .null⟩

/-- A server answering with an object body (and a `Link` header, which
must be ignored for object-shaped responses). -/
def srvObject : Nat → NetResp :=
  fun _ => .ok ⟨200, none, none, some "<https://api.github.com/x?page=2>; rel=\"next\"",
    .dict [("paused", .bool true)]⟩

/-- A server that always answers a bare 403: no rate-limit headers at
all. -/
def srvBare403 : Nat → NetResp :=
  fun _ => .ok ⟨403, none, none, none, .null⟩

/-- A server that rate-limits the first two requests (reset timestamps
100 and 250) and then succeeds. -/
def srvRateLimited : Nat → NetResp := fun k =>
  if k = 0 then .ok ⟨403, some 0, some 100, none, .null⟩
  else if k = 1 then .ok ⟨403, some 0, some 250, none, .null⟩
  else .ok ⟨200, some 5, none, none, .arr [.str "data"]⟩

/-- The reset timestamps `srvRateLimited` advertises. -/
def rsRateLimited : Nat → Int := fun i => if i = 0 then 100 else 250

/-- Second- and third-page URLs of the concrete paginated witness. -/
def pageUrl2 : String := "https://api.github.com/orgs/o/repos?page=2"

def pageUrl3 : String := "https://api.github.com/orgs/o/repos?page=3"

/-- GitHub-style `Link` header of page 1: next = page 2, last = page 3. -/
def hdrPage1 : String :=
  "<" ++ pageUrl2 ++ ">; rel=\"next\", <" ++ pageUrl3 ++ ">; rel=\"last\""

/-- GitHub-style `Link` header of page 2: next = page 3, last = page 3. -/
def hdrPage2 : String :=
  "<" ++ pageUrl3 ++ ">; rel=\"next\", <" ++ pageUrl3 ++ ">; rel=\"last\""

/-- The three pages served by `srvPaged`. -/
def specsPaged : List PageSpec :=
  [⟨[.str "r1", .str "r2"], none, none, some hdrPage1, some pageUrl2⟩,
   ⟨[.str "r3"], none, none, some hdrPage2, some pageUrl3⟩,
   ⟨[.str "r4"], none, none, none, none⟩]

/-- A server paginating a list over three pages. -/
def srvPaged : Nat → NetResp := fun k =>
  if k = 0 then .ok ⟨200, none, none, some hdrPage1, .arr [.str "r1", .str "r2"]⟩
  else if k = 1 then .ok ⟨200, none, none, some hdrPage2, .arr [.str "r3"]⟩
  else .ok ⟨200, none, none, none, .arr [.str "r4"]⟩

/-- A `Link` header advertising a next page but no `rel="last"` part. -/
def hdrNoLast : String := "<" ++ pageUrl3 ++ ">; rel=\"next\""

/-- Three pages whose middle page's `Link` header has `rel="next"` but no
`rel="last"` — after page 1 already assigned `last_page`. -/
def srvStaleLast : Nat → NetResp := fun k =>
  if k = 0 then .ok ⟨200, none, none, some hdrPage1, .arr [.str "a"]⟩
  else if k = 1 then .ok ⟨200, none, none, some hdrNoLast, .arr [.str "b"]⟩
  else .ok ⟨200, none, none, none, .arr [.str "c"]⟩

/-- A server whose very first page advertises a next page with no
`rel="last"` part, `last_page` never having been assigned. -/
def srvNoLast : Nat → NetResp := fun k =>
  if k = 0 then .ok ⟨200, none, none, some hdrNoLast, .arr [.str "a"]⟩
  else .ok ⟨200, none, none, none, .arr [.str "b"]⟩

/-- A server answering 500 (unexpected unsuccessful status). -/
def srv500 : Nat → NetResp := fun _ => .ok ⟨500, none, none, none, .null⟩

/-- A network that always fails at transport level. -/
def srvNetFail : Nat → NetResp := fun _ => .netErr "timeout"

/-! # Theorems -/

/-- The initial URL `f'{API_BASE}{endpoint}'` is never the empty string,
so the `while url:` loop always starts. -/
theorem api_append_ne (ep : String) : API_BASE ++ ep ≠ "" := by
  obtain ⟨l⟩ := ep
  intro h
  have h2 : (API_BASE ++ String.mk l).data = [] := by rw [h]
  simp [API_BASE, String.instAppend, String.append] at h2

/-- A non-403 response passes straight through the rate-limit loop. -/
theorem resolve403_pass (srv : Nat → NetResp) (fuel : Nat) (r : Response) (u : String)
    (st : St) (h : r.status ≠ 403) : resolve403 srv fuel r u st = (.pass r, st) := by
  simp [resolve403, h]

/-- A 404 answer makes the iteration return `[]` at once. -/
theorem fetch_404 (srv : Nat → NetResp) (fuel : Nat) (u : String) (acc : List JVal)
    (lp : Option String) (st : St) (r : Response)
    (hu : u ≠ "") (hs : srv st.k = .ok r) (h404 : r.status = 404) :
    fetchPages srv (fuel + 1) (some u) acc lp st = ⟨.ok (.arr []), st.tr ++ [u], st.sl⟩ := by
  have h403 : r.status ≠ 403 := by omega
  simp [fetchPages, hu, hs, resolve403_pass, h403, h404]

/-- A 403 answer with nonzero remaining quota makes the logical query
return `[]` (permission denial), without retrying or sleeping. -/
theorem fetch_denied (srv : Nat → NetResp) (fuel : Nat) (u : String) (acc : List JVal)
    (lp : Option String) (st : St) (r : Response) (q : Int)
    (hu : u ≠ "") (hs : srv st.k = .ok r) (h403 : r.status = 403)
    (hrem : r.remaining = some q) (hq : q ≠ 0) :
    fetchPages srv (fuel + 1) (some u) acc lp st = ⟨.ok (.arr []), st.tr ++ [u], st.sl⟩ := by
  simp [fetchPages, hu, hs, resolve403, h403, hrem, hq]

/-- A transport error on a GET is fatal (`sys.exit(1)`). -/
theorem fetch_neterr (srv : Nat → NetResp) (fuel : Nat) (u : String) (acc : List JVal)
    (lp : Option String) (st : St) (msg : String)
    (hu : u ≠ "") (hs : srv st.k = .netErr msg) :
    fetchPages srv (fuel + 1) (some u) acc lp st = ⟨.error .exit1, st.tr ++ [u], st.sl⟩ := by
  simp [fetchPages, hu, hs]

/-- Any unsuccessful status other than 403/404 is fatal:
`raise_for_status` raises and the handler calls `sys.exit(1)`. -/
theorem fetch_badstatus (srv : Nat → NetResp) (fuel : Nat) (u : String) (acc : List JVal)
    (lp : Option String) (st : St) (r : Response)
    (hu : u ≠ "") (hs : srv st.k = .ok r) (h403 : r.status ≠ 403) (h404 : r.status ≠ 404)
    (hge : 400 ≤ r.status) (hlt : r.status < 600) :
    fetchPages srv (fuel + 1) (some u) acc lp st = ⟨.error .exit1, st.tr ++ [u], st.sl⟩ := by
  simp [fetchPages, hu, hs, resolve403_pass _ _ _ _ _ h403, h404, hge, hlt]

/-- C3: a 404 answer makes `make_request` return an empty sequence (no
exception, no exit), and therefore `dependabot_is_paused` reports `False`
for any (org, repo) whose pause-status endpoint answers 404; the 404
never reaches the fatal-error path (the result is `.ok`, not `exit1`). -/
theorem claim_C3_404_yields_empty (srv : Nat → NetResp) (fuel : Nat) (ep org repo : String)
    (now0 : Int) (r : Response)
    (h0 : srv 0 = .ok r) (h404 : r.status = 404) :
    make_request srv (fuel + 1) ep now0 = ⟨.ok (.arr []), [API_BASE ++ ep], []⟩ ∧
    dependabot_is_paused (fun e => (make_request srv (fuel + 1) e now0).result) org repo
      = .ok (.bool false) := by
  have key : ∀ e, make_request srv (fuel + 1) e now0 = ⟨.ok (.arr []), [API_BASE ++ e], []⟩ := by
    intro e
    unfold make_request
    rw [fetch_404 srv fuel _ [] none ⟨0, now0, [], []⟩ r (api_append_ne e) h0 h404]
    simp
  refine ⟨key ep, ?_⟩
  simp [dependabot_is_paused, key, paused_of]

/-- Witness for `claim_C3_404_yields_empty` at a concrete 404 server. -/
theorem claim_C3_404_yields_empty_witness :
    make_request srv404 3 "/repos/o/r/automated-security-fixes" 0 =
      ⟨.ok (.arr []), [API_BASE ++ "/repos/o/r/automated-security-fixes"], []⟩ ∧
    dependabot_is_paused (fun e => (make_request srv404 3 e 0).result) "o" "r"
      = .ok (.bool false) :=
  claim_C3_404_yields_empty srv404 2 "/repos/o/r/automated-security-fixes" "o" "r" 0
    ⟨404, none, none, none, .null⟩ rfl rfl

/-- C4: a 403 answer with nonzero remaining quota makes `make_request`
return an empty sequence for the logical query (after the printed
diagnostic) instead of raising or exiting, and a query resolving to the
empty sequence leaves the driver's repo scan to proceed with the
remaining repositories (and hence organizations) unchanged. -/
theorem claim_C4_permission_denial (srv : Nat → NetResp) (fuel : Nat) (ep : String)
    (now0 : Int) (r : Response) (q : Int)
    (h0 : srv 0 = .ok r) (h403 : r.status = 403) (hrem : r.remaining = some q) (hq : q ≠ 0) :
    make_request srv (fuel + 1) ep now0 = ⟨.ok (.arr []), [API_BASE ++ ep], []⟩ ∧
    (∀ (fetch : String → Except Failure JVal) (org repo : String) (rest : List String)
        (pr : Report) (calls : List String),
      fetch (pausedEndpoint org repo) = .ok (.arr []) →
      scanRepos fetch org (repo :: rest) pr calls =
        scanRepos fetch org rest pr (calls ++ [pausedEndpoint org repo])) := by
  constructor
  · unfold make_request
    rw [fetch_denied srv fuel _ [] none ⟨0, now0, [], []⟩ r q (api_append_ne ep) h0 h403 hrem hq]
    simp
  · intro fetch org repo rest pr calls hf
    simp only [pausedEndpoint] at hf
    simp [scanRepos, dependabot_is_paused, pausedEndpoint, hf, paused_of, jTruthy]

/-- Witness for `claim_C4_permission_denial` at a concrete denied
server. -/
theorem claim_C4_permission_denial_witness :
    make_request srvDenied 5 "/orgs/o/repos" 0 =
      ⟨.ok (.arr []), [API_BASE ++ "/orgs/o/repos"], []⟩ ∧
    (∀ (fetch : String → Except Failure JVal) (org repo : String) (rest : List String)
        (pr : Report) (calls : List String),
      fetch (pausedEndpoint org repo) = .ok (.arr []) →
      scanRepos fetch org (repo :: rest) pr calls =
        scanRepos fetch org rest pr (calls ++ [pausedEndpoint org repo])) :=
  claim_C4_permission_denial srvDenied 4 "/orgs/o/repos" 0
    ⟨403, some 42, none, none, .null⟩ 42 rfl rfl rfl (by decide)

/-- C8: when a physical response carries an object (dict) body, that
object is returned immediately — regardless of the accumulated list items
from earlier pages (arbitrary `acc`, discarded) and regardless of any
`Link` header (no pagination attempted). -/
theorem claim_C8_object_short_circuit (srv : Nat → NetResp) (fuel : Nat) (u : String)
    (acc : List JVal) (lp : Option String) (st : St) (r : Response)
    (fs : List (String × JVal))
    (hu : u ≠ "") (hs : srv st.k = .ok r) (h200 : r.status = 200) (hb : r.body = .dict fs) :
    fetchPages srv (fuel + 1) (some u) acc lp st = ⟨.ok (.dict fs), st.tr ++ [u], st.sl⟩ := by
  have h403 : r.status ≠ 403 := by omega
  have h404 : r.status ≠ 404 := by omega
  simp [fetchPages, hu, hs, resolve403_pass _ _ _ _ _ h403, h404, h200, hb]

/-- Witness for `claim_C8_object_short_circuit`: mid-query (non-empty
accumulator), object body with a `Link` header present. -/
theorem claim_C8_object_short_circuit_witness :
    fetchPages srvObject 5 (some "https://api.github.com/x") [.str "stale"] none
        ⟨0, 0, [], []⟩ =
      ⟨.ok (.dict [("paused", .bool true)]), [] ++ ["https://api.github.com/x"], []⟩ :=
  claim_C8_object_short_circuit srvObject 4 "https://api.github.com/x" [.str "stale"] none
    ⟨0, 0, [], []⟩ ⟨200, none, none, some "<https://api.github.com/x?page=2>; rel=\"next\"",
      .dict [("paused", .bool true)]⟩ [("paused", .bool true)] (by decide) rfl rfl rfl

/-- On a server that keeps answering bare 403s (no rate-limit headers),
the inner retry loop sleeps `max(0 - now, 0) = 0` seconds (both headers
default to `0`), re-GETs the same URL, and never leaves the loop: it
consumes every amount of fuel. -/
theorem resolve403_bare (srv : Nat → NetResp) (u : String)
    (hsrv : ∀ k, ∃ r, srv k = .ok r ∧ r.status = 403 ∧ r.remaining = none ∧ r.reset = none) :
    ∀ (fuel : Nat) (r : Response) (st : St),
      r.status = 403 → r.remaining = none → r.reset = none → 0 ≤ st.now →
      resolve403 srv fuel r u st =
        (.fail .outOfFuel,
         ⟨st.k + fuel, st.now, st.tr ++ List.replicate fuel u,
          st.sl ++ List.replicate (fuel + 1) 0⟩) := by
  intro fuel
  induction fuel with
  | zero =>
    intro r st h403 hrem hres hnow
    obtain ⟨a, b, c, lnk, bd⟩ := r
    obtain ⟨k, now, tr, sl⟩ := st
    change a = 403 at h403
    change b = none at hrem
    change c = none at hres
    change (0 : Int) ≤ now at hnow
    subst h403; subst hrem; subst hres
    have hmax : max (0 - now) 0 = (0 : Int) := max_eq_right (by omega)
    have step : resolve403 srv 0 ⟨403, none, none, lnk, bd⟩ u ⟨k, now, tr, sl⟩ =
        (.fail .outOfFuel, ⟨k, now + max (0 - now) 0, tr, sl ++ [max (0 - now) 0]⟩) := rfl
    rw [step, hmax]
    simp
  | succ fuel ih =>
    intro r st h403 hrem hres hnow
    obtain ⟨a, b, c, lnk, bd⟩ := r
    obtain ⟨k, now, tr, sl⟩ := st
    change a = 403 at h403
    change b = none at hrem
    change c = none at hres
    change (0 : Int) ≤ now at hnow
    subst h403; subst hrem; subst hres
    obtain ⟨r', hr', h403', hrem', hres'⟩ := hsrv k
    have hmax : max (0 - now) 0 = (0 : Int) := max_eq_right (by omega)
    have step : resolve403 srv (fuel + 1) ⟨403, none, none, lnk, bd⟩ u ⟨k, now, tr, sl⟩ =
        match srv k with
        | .netErr _ =>
          (.fail .exit1, ⟨k + 1, now + max (0 - now) 0, tr ++ [u], sl ++ [max (0 - now) 0]⟩)
        | .ok r' =>
          resolve403 srv fuel r' u
            ⟨k + 1, now + max (0 - now) 0, tr ++ [u], sl ++ [max (0 - now) 0]⟩ := rfl
    rw [step, hr', hmax]
    simp only [Int.add_zero]
    rw [ih r' ⟨k + 1, now, tr ++ [u], sl ++ [0]⟩ h403' hrem' hres' hnow]
    simp [St.mk.injEq, List.replicate_succ]
    omega

/-- On a server of bare 403s, each outer iteration burns all its fuel in
the retry loop, always re-requesting the same URL with zero-length
sleeps. -/
theorem fetch_bare (srv : Nat → NetResp) (u : String)
    (hsrv : ∀ k, ∃ r, srv k = .ok r ∧ r.status = 403 ∧ r.remaining = none ∧ r.reset = none)
    (fuel : Nat) (acc : List JVal) (lp : Option String) (st : St)
    (hu : u ≠ "") (hnow : 0 ≤ st.now) :
    fetchPages srv fuel (some u) acc lp st =
      ⟨.error .outOfFuel, st.tr ++ List.replicate fuel u, st.sl ++ List.replicate fuel 0⟩ := by
  obtain ⟨k, now, tr, sl⟩ := st
  simp at hnow
  cases fuel with
  | zero => simp [fetchPages, hu]
  | succ fuel =>
    obtain ⟨r, hr, h403, hrem, hres⟩ := hsrv k
    simp [fetchPages, hu, hr,
          resolve403_bare srv u hsrv fuel r ⟨k + 1, now, tr ++ [u], sl⟩ h403 hrem hres hnow,
          List.replicate_succ]

/-- C10: a 403 response carrying no `X-RateLimit-Remaining` header is
treated as zero remaining quota (`int(headers.get(..., 0))`), so the
rate-limit sleep-and-retry path is taken — never the permission-denied
path: with `X-RateLimit-Reset` also absent the reset defaults to `0`, the
sleep is `max(0 - time(), 0) = 0` seconds, and the same URL is re-issued.
If the server keeps answering bare 403s, the retry loop never terminates:
for every fuel the run is `outOfFuel`, having requested the same URL
`fuel` times with all-zero sleeps (in particular it never produces the
permission-denied empty result). -/
theorem claim_C10_bare_403_loops (srv : Nat → NetResp) (ep : String) (now0 : Int)
    (hnow : 0 ≤ now0)
    (hsrv : ∀ k, ∃ r, srv k = .ok r ∧ r.status = 403 ∧ r.remaining = none ∧ r.reset = none) :
    ∀ fuel, make_request srv fuel ep now0 =
      ⟨.error .outOfFuel, List.replicate fuel (API_BASE ++ ep), List.replicate fuel 0⟩ := by
  intro fuel
  unfold make_request
  rw [fetch_bare srv (API_BASE ++ ep) hsrv fuel [] none ⟨0, now0, [], []⟩
    (api_append_ne ep) hnow]
  simp

/-- Witness for `claim_C10_bare_403_loops` at the concrete bare-403
server, fuel 3. -/
theorem claim_C10_bare_403_loops_witness :
    make_request srvBare403 3 "/user/orgs" 7 =
      ⟨.error .outOfFuel, List.replicate 3 (API_BASE ++ "/user/orgs"), List.replicate 3 0⟩ :=
  claim_C10_bare_403_loops srvBare403 "/user/orgs" 7 (by decide)
    (fun _ => ⟨⟨403, none, none, none, .null⟩, rfl, rfl, rfl, rfl⟩) 3

/-- The rate-limit loop across a chain of `m` 403/zero-quota responses:
`m` sleeps of `max(reset - time(), 0)` each advancing the clock, `m`
re-GETs of the same URL, and the first non-403 response passes through
untouched. -/
theorem resolve403_rl (srv : Nat → NetResp) (u : String) :
    ∀ (m : Nat) (rs : Nat → Int) (fuel : Nat) (r rfin : Response) (st : St),
      m ≤ fuel → RlChain srv m st.k rs r rfin →
      resolve403 srv fuel r u st =
        (.pass rfin,
         ⟨st.k + m, rlNow m st.now rs, st.tr ++ List.replicate m u,
          st.sl ++ rlSleeps m st.now rs⟩) := by
  intro m
  induction m with
  | zero =>
    intro rs fuel r rfin st _ hch
    obtain ⟨heq, h403⟩ := hch
    subst heq
    obtain ⟨k, now, tr, sl⟩ := st
    rw [resolve403_pass srv fuel r u ⟨k, now, tr, sl⟩ h403]
    simp [rlNow, rlSleeps]
  | succ m ih =>
    intro rs fuel r rfin st hle hch
    obtain ⟨h403, hrem, hres, r', hr', hch'⟩ := hch
    obtain ⟨k, now, tr, sl⟩ := st
    cases fuel with
    | zero => omega
    | succ fuel =>
      obtain ⟨a, b, c, lnk, bd⟩ := r
      change a = 403 at h403
      change b = some 0 at hrem
      change c = some (rs 0) at hres
      subst h403; subst hrem; subst hres
      have step : resolve403 srv (fuel + 1) ⟨403, some 0, some (rs 0), lnk, bd⟩ u
          ⟨k, now, tr, sl⟩ =
          match srv k with
          | .netErr _ =>
            (.fail .exit1,
             ⟨k + 1, now + max (rs 0 - now) 0, tr ++ [u], sl ++ [max (rs 0 - now) 0]⟩)
          | .ok r2 =>
            resolve403 srv fuel r2 u
              ⟨k + 1, now + max (rs 0 - now) 0, tr ++ [u], sl ++ [max (rs 0 - now) 0]⟩ := rfl
      rw [step, hr']
      show resolve403 srv fuel r' u
        ⟨k + 1, now + max (rs 0 - now) 0, tr ++ [u], sl ++ [max (rs 0 - now) 0]⟩ = _
      rw [ih (fun i => rs (i + 1)) fuel r' rfin
        ⟨k + 1, now + max (rs 0 - now) 0, tr ++ [u], sl ++ [max (rs 0 - now) 0]⟩
        (by omega) hch']
      simp [rlNow, rlSleeps, St.mk.injEq, List.replicate_succ]
      omega

/-- Flat hypotheses (`m` rate-limited responses then a success) assemble
into an `RlChain` starting at the first response. -/
theorem RlChain_start (srv : Nat → NetResp) :
    ∀ (m k : Nat) (rs : Nat → Int) (rfin : Response),
      (∀ i, i < m → ∃ r, srv (k + i) = .ok r ∧ r.status = 403 ∧
        r.remaining = some 0 ∧ r.reset = some (rs i)) →
      srv (k + m) = .ok rfin → rfin.status ≠ 403 →
      ∃ r0, srv k = .ok r0 ∧ RlChain srv m (k + 1) rs r0 rfin := by
  intro m
  induction m with
  | zero =>
    intro k rs rfin _ hm hst
    exact ⟨rfin, by simpa using hm, rfl, hst⟩
  | succ m ih =>
    intro k rs rfin hflat hm hst
    obtain ⟨r0, hr0, h403, hrem, hres⟩ := hflat 0 (by omega)
    refine ⟨r0, by simpa using hr0, h403, hrem, hres, ?_⟩
    have hm' : srv ((k + 1) + m) = .ok rfin := by
      have h : (k + 1) + m = k + (m + 1) := by omega
      rw [h]; exact hm
    have hflat' : ∀ i, i < m → ∃ r, srv ((k + 1) + i) = .ok r ∧ r.status = 403 ∧
        r.remaining = some 0 ∧ r.reset = some (rs (i + 1)) := by
      intro i hi
      have h : (k + 1) + i = k + (i + 1) := by omega
      rw [h]; exact hflat (i + 1) (by omega)
    exact ih (k + 1) (fun i => rs (i + 1)) rfin hflat' hm' hst

/-- C2: when the server answers a request with `m` consecutive 403s with
zero remaining quota (reset timestamps `rs 0, …, rs (m-1)`) and the
`(m+1)`-st attempt succeeds with a list body, `make_request` sleeps
`max(reset - time(), 0)` before each retry (each sleep advancing the
clock), re-issues the *same* URL every time, and finally returns the
data exactly as if no rate limiting had occurred. -/
theorem claim_C2_rate_limit_retry (srv : Nat → NetResp) (m fuel : Nat) (rs : Nat → Int)
    (ep : String) (now0 : Int) (rfin : Response) (items : List JVal)
    (hflat : ∀ i, i < m → ∃ r, srv i = .ok r ∧ r.status = 403 ∧
      r.remaining = some 0 ∧ r.reset = some (rs i))
    (hm : srv m = .ok rfin) (h200 : rfin.status = 200) (hbody : rfin.body = .arr items)
    (hlink : rfin.link = none) :
    make_request srv (m + (fuel + 1)) ep now0 =
      ⟨.ok (.arr items), List.replicate (m + 1) (API_BASE ++ ep), rlSleeps m now0 rs⟩ := by
  have hst : rfin.status ≠ 403 := by omega
  obtain ⟨r0, hr0, hch⟩ := RlChain_start srv m 0 rs rfin (by simpa using hflat)
    (by simpa using hm) hst
  unfold make_request
  have hres := resolve403_rl srv (API_BASE ++ ep) m rs (m + fuel) r0 rfin
    ⟨1, now0, [API_BASE ++ ep], []⟩ (by omega) hch
  simp [fetchPages, api_append_ne ep, hr0, hres, h200, hbody, hlink, List.replicate_succ]

/-- Witness for `claim_C2_rate_limit_retry`: two rate-limited attempts
(resets 100 and 250, clock starting at 40), then success. -/
theorem claim_C2_rate_limit_retry_witness :
    make_request srvRateLimited (2 + (7 + 1)) "/x" 40 =
      ⟨.ok (.arr [.str "data"]), List.replicate 3 (API_BASE ++ "/x"),
       rlSleeps 2 40 rsRateLimited⟩ :=
  claim_C2_rate_limit_retry srvRateLimited 2 7 rsRateLimited "/x" 40
    ⟨200, some 5, none, none, .arr [.str "data"]⟩ [.str "data"]
    (fun i hi => by
      match i with
      | 0 => exact ⟨⟨403, some 0, some 100, none, .null⟩, rfl, rfl, rfl, rfl⟩
      | 1 => exact ⟨⟨403, some 0, some 250, none, .null⟩, rfl, rfl, rfl, rfl⟩
      | n + 2 => omega)
    rfl rfl rfl rfl

/-- One unfolding of the outer page loop at a `some` URL (the body of the
`while url:` iteration, with the state fields exposed). -/
theorem fetchPages_step (srv : Nat → NetResp) (fuel : Nat) (u : String) (acc : List JVal)
    (lp : Option String) (k : Nat) (now : Int) (tr : List String) (sl : List Int) :
    fetchPages srv (fuel + 1) (some u) acc lp ⟨k, now, tr, sl⟩ =
      if u = "" then ⟨.ok (.arr acc), tr, sl⟩
      else
        match srv k with
        | .netErr _ => ⟨.error .exit1, tr ++ [u], sl⟩
        | .ok r =>
          match resolve403 srv fuel r u ⟨k + 1, now, tr ++ [u], sl⟩ with
          | (.fail e, st2) => ⟨.error e, st2.tr, st2.sl⟩
          | (.denied, st2) => ⟨.ok (.arr []), st2.tr, st2.sl⟩
          | (.pass r', st2) =>
            if r'.status = 404 then ⟨.ok (.arr []), st2.tr, st2.sl⟩
            else if 400 ≤ r'.status ∧ r'.status < 600 then ⟨.error .exit1, st2.tr, st2.sl⟩
            else
              match r'.body with
              | .dict fs => ⟨.ok (.dict fs), st2.tr, st2.sl⟩
              | .arr items =>
                match r'.link with
                | none => ⟨.ok (.arr (acc ++ items)), st2.tr, st2.sl⟩
                | some lh =>
                  match linkStep lh lp with
                  | .error e => ⟨.error e, st2.tr, st2.sl⟩
                  | .ok (lp', nxt) => fetchPages srv fuel nxt (acc ++ items) lp' st2
              | _ => ⟨.error .typeError, st2.tr, st2.sl⟩ := rfl

/-- The page loop over a well-linked chain of list pages concatenates all
items in server page order and requests exactly the advertised
`rel="next"` URLs, stopping at the final page. -/
theorem fetch_chain (srv : Nat → NetResp) :
    ∀ (specs : List PageSpec) (fuel : Nat) (u : String) (acc : List JVal)
      (lp : Option String) (st : St),
      specs ≠ [] → u ≠ "" → specs.length ≤ fuel →
      ChainOk srv st.k specs →
      fetchPages srv fuel (some u) acc lp st =
        ⟨.ok (.arr (acc ++ chainItems specs)), st.tr ++ u :: chainUrls specs, st.sl⟩ := by
  intro specs
  induction specs with
  | nil => intro fuel u acc lp st hne; exact absurd rfl hne
  | cons s rest ih =>
    intro fuel u acc lp st _ hu hlen hch
    obtain ⟨k, now, tr, sl⟩ := st
    obtain ⟨hresp, htail⟩ := hch
    cases fuel with
    | zero => simp at hlen
    | succ fuel =>
      rw [fetchPages_step, if_neg hu]
      cases rest with
      | nil =>
        rcases htail with ⟨hlnk, hnxt⟩ | ⟨h, hlnk, hnxt, hstep⟩
        · simp [hresp, resolve403_pass, hlnk, chainItems, chainUrls, hnxt]
        · obtain ⟨lp2, hstep'⟩ := hstep lp
          simp [hresp, resolve403_pass, hlnk, hstep', chainItems, chainUrls, hnxt, fetchPages]
      | cons s2 rest2 =>
        obtain ⟨h, u', hlnk, hnxt, hu', hstep, hch'⟩ := htail
        obtain ⟨lp2, hstep'⟩ := hstep lp
        have hlen' : (s2 :: rest2).length ≤ fuel := by simp at hlen ⊢; omega
        have hrec := ih fuel u' (acc ++ s.items) lp2 ⟨k + 1, now, tr ++ [u], sl⟩
          (by simp) hu' hlen' hch'
        simp [hresp, resolve403_pass, hlnk, hstep', hrec, chainItems, chainUrls, hnxt]

/-- C1: for every list response split across any chain of pages — each
page's `Link` header parsing (by the code's own link loops) to the next
page's URL, the final page advertising none — `make_request` returns the
concatenation of all pages' items in server page order, requesting
exactly the initial URL followed by each advertised `rel="next"` URL, and
stopping at the page whose `Link` header is absent or has no
`rel="next"` part. -/
theorem claim_C1_pagination_concat (srv : Nat → NetResp) (specs : List PageSpec)
    (fuel : Nat) (ep : String) (now0 : Int)
    (hne : specs ≠ []) (hlen : specs.length ≤ fuel) (hch : ChainOk srv 0 specs) :
    make_request srv fuel ep now0 =
      ⟨.ok (.arr (chainItems specs)), (API_BASE ++ ep) :: chainUrls specs, []⟩ := by
  unfold make_request
  rw [fetch_chain srv specs fuel (API_BASE ++ ep) [] none ⟨0, now0, [], []⟩ hne
    (api_append_ne ep) hlen hch]
  simp

/-- Witness for `claim_C1_pagination_concat`: the concrete three-page
server. -/
theorem claim_C1_pagination_concat_witness :
    make_request srvPaged 5 "/orgs/o/repos" 0 =
      ⟨.ok (.arr (chainItems specsPaged)),
       (API_BASE ++ "/orgs/o/repos") :: chainUrls specsPaged, []⟩ :=
  claim_C1_pagination_concat srvPaged specsPaged 5 "/orgs/o/repos" 0
    (by simp [specsPaged]) (by simp [specsPaged])
    ⟨rfl, hdrPage1, pageUrl2, rfl, rfl, by decide, fun lp => ⟨some "3", rfl⟩,
     rfl, hdrPage2, pageUrl3, rfl, rfl, by decide, fun lp => ⟨some "3", rfl⟩,
     rfl, Or.inl ⟨rfl, rfl⟩⟩

/-- Unfolding of the rate-limit loop at zero fuel (definitional). -/
theorem resolve403_zero (srv : Nat → NetResp) (r : Response) (u : String) (st : St) :
    resolve403 srv 0 r u st =
      if r.status = 403 then
        if r.remaining.getD 0 = 0 then
          (.fail .outOfFuel,
           ⟨st.k, st.now + max (r.reset.getD 0 - st.now) 0, st.tr,
            st.sl ++ [max (r.reset.getD 0 - st.now) 0]⟩)
        else (.denied, st)
      else (.pass r, st) := rfl

/-- Unfolding of the rate-limit loop at positive fuel (definitional). -/
theorem resolve403_succ (srv : Nat → NetResp) (fuel : Nat) (r : Response) (u : String)
    (st : St) :
    resolve403 srv (fuel + 1) r u st =
      if r.status = 403 then
        if r.remaining.getD 0 = 0 then
          match srv st.k with
          | .netErr _ =>
            (.fail .exit1,
             ⟨st.k + 1, st.now + max (r.reset.getD 0 - st.now) 0, st.tr ++ [u],
              st.sl ++ [max (r.reset.getD 0 - st.now) 0]⟩)
          | .ok r' =>
            resolve403 srv fuel r' u
              ⟨st.k + 1, st.now + max (r.reset.getD 0 - st.now) 0, st.tr ++ [u],
               st.sl ++ [max (r.reset.getD 0 - st.now) 0]⟩
        else (.denied, st)
      else (.pass r, st) := rfl

/-- The rate-limit loop fails only by running out of fuel or by a
transport error (`sys.exit(1)`); no other exception escapes it. -/
theorem resolve403_fail_cases (srv : Nat → NetResp) (u : String) :
    ∀ (fuel : Nat) (r : Response) (st : St) (e : Failure) (st2 : St),
      resolve403 srv fuel r u st = (.fail e, st2) → e = .outOfFuel ∨ e = .exit1 := by
  intro fuel
  induction fuel with
  | zero =>
    intro r st e st2 h
    rw [resolve403_zero] at h
    split at h
    · split at h
      · simp at h
        exact Or.inl h.1.symm
      · simp at h
    · simp at h
  | succ fuel ih =>
    intro r st e st2 h
    rw [resolve403_succ] at h
    split at h
    · split at h
      · rcases hsv : srv st.k with r2 | m
        · simp only [hsv] at h
          exact ih r2 _ e st2 h
        · simp only [hsv] at h
          simp at h
          exact Or.inr h.1.symm
      · simp at h
    · simp at h

/-- The response that leaves the rate-limit loop is the incoming one or
some response served by the network. -/
theorem resolve403_pass_src (srv : Nat → NetResp) (u : String) :
    ∀ (fuel : Nat) (r : Response) (st : St) (r' : Response) (st2 : St),
      resolve403 srv fuel r u st = (.pass r', st2) → r' = r ∨ ∃ j, srv j = .ok r' := by
  intro fuel
  induction fuel with
  | zero =>
    intro r st r' st2 h
    rw [resolve403_zero] at h
    split at h
    · split at h
      · simp at h
      · simp at h
    · simp at h
      exact Or.inl h.1.symm
  | succ fuel ih =>
    intro r st r' st2 h
    rw [resolve403_succ] at h
    split at h
    · split at h
      · rcases hsv : srv st.k with r2 | m
        · simp only [hsv] at h
          rcases ih r2 _ r' st2 h with rfl | hj
          · exact Or.inr ⟨st.k, hsv⟩
          · exact Or.inr hj
        · simp only [hsv] at h
          simp at h
      · simp at h
    · simp at h
      exact Or.inl h.1.symm

/-- The `rel="last"` loop can only raise `AttributeError`, never
`NameError`. -/
theorem processLast_no_nameError : ∀ (ls : List String) (lp : Option String),
    processLast ls lp ≠ .error .nameError := by
  intro ls
  induction ls with
  | nil => intro lp; simp [processLast]
  | cons l ls ih =>
    intro lp
    unfold processLast
    split
    · split
      · simp
      · exact ih _
    · exact ih _

/-- If the `rel="last"` loop leaves `last_page` unassigned, it was
unassigned before and no part contains `rel="last"`. -/
theorem processLast_ok_none : ∀ (ls : List String) (lp : Option String),
    processLast ls lp = .ok none →
    lp = none ∧ ∀ l ∈ ls, hasSub l "rel=\"last\"" = false := by
  intro ls
  induction ls with
  | nil =>
    intro lp h
    simp [processLast] at h
    exact ⟨h, by simp⟩
  | cons l ls ih =>
    intro lp h
    unfold processLast at h
    split at h
    · split at h
      · simp at h
      · obtain ⟨hcontra, _⟩ := ih _ h
        simp at hcontra
    · obtain ⟨h1, h2⟩ := ih lp h
      refine ⟨h1, ?_⟩
      intro x hx
      rcases List.mem_cons.mp hx with rfl | hx'
      · rename_i hc
        simpa using hc
      · exact h2 x hx'

/-- The `rel="next"` loop raises `NameError` only when `last_page` is
unassigned and some part contains `rel="next"`. -/
theorem processNext_nameError : ∀ (ls : List String) (lp url : Option String),
    processNext ls lp url = .error .nameError →
    lp = none ∧ ∃ l ∈ ls, hasSub l "rel=\"next\"" = true := by
  intro ls
  induction ls with
  | nil => intro lp url h; simp [processNext] at h
  | cons l ls ih =>
    intro lp url h
    unfold processNext at h
    by_cases hc : hasSub l "rel=\"next\"" = true
    · rw [if_pos hc] at h
      cases hlt : pyIndex l '<' with
      | none => simp only [hlt] at h; simp at h
      | some i =>
        simp only [hlt] at h
        cases hgt : pyIndex l '>' with
        | none => simp only [hgt] at h; simp at h
        | some j =>
          simp only [hgt] at h
          cases hpm : pageMatch (pySlice l (i + 1) j) with
          | none => simp only [hpm] at h; simp at h
          | some g =>
            simp only [hpm] at h
            cases lp with
            | none => exact ⟨rfl, l, List.mem_cons_self l ls, hc⟩
            | some s =>
              obtain ⟨hcontra, _⟩ := ih _ _ h
              simp at hcontra
    · rw [if_neg hc] at h
      obtain ⟨h1, l', hl', hsub⟩ := ih _ _ h
      exact ⟨h1, l', List.mem_cons_of_mem l hl', hsub⟩

/-- Under `HeaderOk`, the link loops never raise `NameError`. -/
theorem linkStep_no_nameError (lh : String) (lp : Option String) (hok : HeaderOk lh) :
    linkStep lh lp ≠ .error .nameError := by
  unfold linkStep
  cases hpl : processLast (splitOnPy lh ", ") lp with
  | error e =>
    intro h
    simp at h
    subst h
    exact processLast_no_nameError _ lp hpl
  | ok lp' =>
    cases hpn : processNext (splitOnPy lh ", ") lp' none with
    | error e =>
      intro h
      simp only [hpn] at h
      simp at h
      subst h
      obtain ⟨hlpnone, l, hl, hsubl⟩ := processNext_nameError _ lp' none hpn
      subst hlpnone
      obtain ⟨_, h2⟩ := processLast_ok_none _ lp hpl
      obtain ⟨l2, hl2, hsub2, _⟩ := hok ⟨l, hl, hsubl⟩
      rw [h2 l2 hl2] at hsub2
      exact absurd hsub2 (by simp)
    | ok nxt => simp [hpn]

/-- When every `Link` header the server ever sends is benign
(`HeaderOk`), the page loop never dies with the unassigned-`last_page`
`NameError`, whatever its state. -/
theorem fetch_no_nameError (srv : Nat → NetResp)
    (hsrv : ∀ k r lh, srv k = .ok r → r.link = some lh → HeaderOk lh) :
    ∀ (fuel : Nat) (url? : Option String) (acc : List JVal) (lp : Option String) (st : St),
      (fetchPages srv fuel url? acc lp st).result ≠ .error .nameError := by
  intro fuel
  induction fuel with
  | zero =>
    intro url? acc lp st
    cases url? with
    | none => simp [fetchPages]
    | some u =>
      by_cases hu : u = "" <;> simp [fetchPages, hu]
  | succ fuel ih =>
    intro url? acc lp st
    obtain ⟨k, now, tr, sl⟩ := st
    cases url? with
    | none => simp [fetchPages]
    | some u =>
      by_cases hu : u = ""
      · simp [fetchPages, hu]
      · rw [fetchPages_step, if_neg hu]
        cases hsv : srv k with
        | ok r =>
          rcases hres : resolve403 srv fuel r u ⟨k + 1, now, tr ++ [u], sl⟩ with ⟨step, st2⟩
          cases step with
          | denied => simp [hres]
          | fail e =>
            rcases resolve403_fail_cases srv u fuel r _ e st2 hres with rfl | rfl <;>
              simp [hres]
          | pass r' =>
            by_cases h404 : r'.status = 404
            · simp [hres, h404]
            · by_cases hbad : 400 ≤ r'.status ∧ r'.status < 600
              · simp [hres, h404, hbad]
              · cases hbody : r'.body with
                | arr items =>
                  cases hlnk : r'.link with
                  | none => simp [hres, h404, hbad, hbody, hlnk]
                  | some lh =>
                    have hok : HeaderOk lh := by
                      rcases resolve403_pass_src srv u fuel r _ r' st2 hres with rfl | ⟨j, hj⟩
                      · exact hsrv k r' lh hsv hlnk
                      · exact hsrv j r' lh hj hlnk
                    cases hls : linkStep lh lp with
                    | error e =>
                      have hne : e ≠ .nameError := fun he =>
                        linkStep_no_nameError lh lp hok (he ▸ hls)
                      simp [hres, h404, hbad, hbody, hlnk, hls]
                      exact fun hcon => hne hcon
                    | ok pair =>
                      rcases pair with ⟨lp', nxt⟩
                      simp only [hres, h404, hbad, hbody, hlnk, hls]
                      exact ih nxt (acc ++ items) lp' st2
                | null => simp [hres, h404, hbad, hbody]
                | bool b => simp [hres, h404, hbad, hbody]
                | num n => simp [hres, h404, hbad, hbody]
                | str s => simp [hres, h404, hbad, hbody]
                | dict fs => simp [hres, h404, hbad, hbody]
        | netErr m => simp [hsv]

/-- C9, counterexample: a response whose `Link` header advertises a next
page but carries no `rel="last"` part does *not* always make the fetcher
fail — when an earlier page already assigned `last_page`, the stale value
is printed and pagination continues to completion.  Here page 2's header
(`hdrNoLast`) has a `rel="next"` part and no `rel="last"` part, yet the
run returns all three pages' items. -/
theorem claim_C9_counterexample :
    (splitOnPy hdrNoLast ", ").any (fun l => hasSub l "rel=\"next\"") = true ∧
    (splitOnPy hdrNoLast ", ").all (fun l => !hasSub l "rel=\"last\"") = true ∧
    make_request srvStaleLast 5 "/x" 0 =
      ⟨.ok (.arr [.str "a", .str "b", .str "c"]),
       [API_BASE ++ "/x", pageUrl2, pageUrl3], []⟩ :=
  ⟨rfl, rfl, rfl⟩

/-- C9, amended: (1) when every `Link` header the server sends that
contains a `rel="next"` part also contains a `rel="last"` part matched by
the page regex (`HeaderOk`), `make_request` never fails with the
unassigned-`last_page` `NameError`; (2) without that precondition the
fetcher can die on this spec-undescribed error path instead of continuing
pagination: concretely, when the *first* paginated response advertises a
next page with no `rel="last"` part (no earlier response having assigned
`last_page`), the run fails with `NameError`. -/
theorem claim_C9_last_page_guard :
    (∀ (srv : Nat → NetResp),
      (∀ k r lh, srv k = .ok r → r.link = some lh → HeaderOk lh) →
      ∀ (fuel : Nat) (ep : String) (now0 : Int),
        (make_request srv fuel ep now0).result ≠ .error .nameError) ∧
    (make_request srvNoLast 5 "/x" 0).result = .error .nameError := by
  constructor
  · intro srv hsrv fuel ep now0
    exact fetch_no_nameError srv hsrv fuel _ [] none ⟨0, now0, [], []⟩
  · rfl

/-- Witness for `claim_C9_last_page_guard`: the always-404 pause-status
server sends no `Link` headers at all, so the precondition holds
vacuously. -/
theorem claim_C9_last_page_guard_witness :
    (make_request srv404 3 "/x" 0).result ≠ .error .nameError :=
  claim_C9_last_page_guard.1 srv404
    (fun k r lh hr hl => by
      have : r = ⟨404, none, none, none, .null⟩ := by cases hr; rfl
      rw [this] at hl
      cases hl)
    3 "/x" 0

/-- Every entry surviving `cleanup_results` has a non-empty repo list. -/
theorem cleanup_no_empty (pr : Report) (p : String × List String)
    (hp : p ∈ cleanup_results pr) : p.2 ≠ [] := by
  unfold cleanup_results at hp
  split at hp
  · rename_i he
    rw [List.isEmpty_iff] at he
    subst he
    simp at hp
  · rw [List.mem_filter] at hp
    simpa using hp.2

/-- `main` either writes nothing, or writes exactly one file: the cleaned
report, non-empty and free of empty-valued keys, with exit code 0. -/
theorem main_model_cases (fetch : String → Except Failure JVal)
    (argOrgs : Option (List String)) (path : String) :
    (main_model fetch argOrgs path).writes = [] ∨
    ∃ rep, (main_model fetch argOrgs path).writes = [(path, rep)] ∧
      (main_model fetch argOrgs path).exit = .ok () ∧ rep ≠ [] ∧
      ∀ p ∈ rep, p.2 ≠ [] := by
  unfold main_model
  rcases hA : pickOrgs fetch argOrgs with ⟨calls, e | orgs⟩
  · simp only [hA]; left; trivial
  · simp only [hA]
    rcases hB : scanOrgs fetch orgs [] calls with ⟨calls2, e2 | pr⟩
    · simp only [hB]; left; trivial
    · simp only [hB]
      by_cases hne : cleanup_results pr = []
      · left; simp [hne]
      · right
        refine ⟨cleanup_results pr, ?_, ?_, hne,
          fun p hp => cleanup_no_empty pr p hp⟩
        · simp [hne]
        · simp [hne]

/-- C5: a transport error or any unsuccessful HTTP status other than 403
and 404 — wherever it occurs within a logical query — makes the process
exit nonzero (`sys.exit(1)` via the `except RequestException` handler),
and whenever `main` ends on an error path no output file has been
written (the JSON artifact is only produced at the very end of a fully
successful scan). -/
theorem claim_C5_fatal_abort :
    (∀ (srv : Nat → NetResp) (fuel : Nat) (u : String) (acc : List JVal)
        (lp : Option String) (st : St) (r : Response),
      u ≠ "" → srv st.k = .ok r → r.status ≠ 403 → r.status ≠ 404 →
      400 ≤ r.status → r.status < 600 →
      fetchPages srv (fuel + 1) (some u) acc lp st =
        ⟨.error .exit1, st.tr ++ [u], st.sl⟩) ∧
    (∀ (srv : Nat → NetResp) (fuel : Nat) (u : String) (acc : List JVal)
        (lp : Option String) (st : St) (msg : String),
      u ≠ "" → srv st.k = .netErr msg →
      fetchPages srv (fuel + 1) (some u) acc lp st =
        ⟨.error .exit1, st.tr ++ [u], st.sl⟩) ∧
    (∀ (fetch : String → Except Failure JVal) (argOrgs : Option (List String))
        (path : String) (e : Failure),
      (main_model fetch argOrgs path).exit = .error e →
      (main_model fetch argOrgs path).writes = []) := by
  refine ⟨fetch_badstatus, fetch_neterr, ?_⟩
  intro fetch argOrgs path e h
  rcases main_model_cases fetch argOrgs path with hw | ⟨rep, _, hex, _, _⟩
  · exact hw
  · rw [hex] at h
    cases h

/-- Witness for `claim_C5_fatal_abort`: a 500 server, a dead network, and
a driver whose very first query is fatal. -/
theorem claim_C5_fatal_abort_witness :
    fetchPages srv500 3 (some "https://api.github.com/u") [] none ⟨0, 0, [], []⟩ =
      ⟨.error .exit1, [] ++ ["https://api.github.com/u"], []⟩ ∧
    fetchPages srvNetFail 3 (some "https://api.github.com/u") [] none ⟨0, 0, [], []⟩ =
      ⟨.error .exit1, [] ++ ["https://api.github.com/u"], []⟩ ∧
    (main_model (fun _ => .error .exit1) none "o.json").writes = [] :=
  ⟨claim_C5_fatal_abort.1 srv500 2 "https://api.github.com/u" [] none ⟨0, 0, [], []⟩
      ⟨500, none, none, none, .null⟩ (by decide) rfl (by decide) (by decide)
      (by decide) (by decide),
   claim_C5_fatal_abort.2.1 srvNetFail 2 "https://api.github.com/u" [] none ⟨0, 0, [], []⟩
      "timeout" (by decide) rfl,
   claim_C5_fatal_abort.2.2 (fun _ => .error .exit1) none "o.json" .exit1 rfl⟩

/-- C6: `cleanup_results` maps the spec's example as stated, removes
exactly the keys bound to empty lists (so the final report never maps an
organization to an empty sequence) and leaves reports without empty
values unchanged; and `main` writes either nothing (in particular when
the cleaned mapping is empty) or a single file whose report is non-empty
and free of empty-valued keys. -/
theorem claim_C6_cleanup_invariant :
    cleanup_results [("org-a", []), ("org-b", ["repo1"])] = [("org-b", ["repo1"])] ∧
    (∀ (pr : Report) (p : String × List String), p ∈ cleanup_results pr → p.2 ≠ []) ∧
    (∀ pr : Report, (∀ p ∈ pr, p.2 ≠ []) → cleanup_results pr = pr) ∧
    (∀ (fetch : String → Except Failure JVal) (argOrgs : Option (List String))
        (path : String),
      (main_model fetch argOrgs path).writes = [] ∨
      ∃ rep, (main_model fetch argOrgs path).writes = [(path, rep)] ∧ rep ≠ [] ∧
        ∀ p ∈ rep, p.2 ≠ []) := by
  refine ⟨rfl, cleanup_no_empty, ?_, ?_⟩
  · intro pr hpr
    unfold cleanup_results
    split
    · rfl
    · rw [List.filter_eq_self]
      intro p hp
      simpa using hpr p hp
  · intro fetch argOrgs path
    rcases main_model_cases fetch argOrgs path with hw | ⟨rep, hw, _, hne, hemp⟩
    · exact Or.inl hw
    · exact Or.inr ⟨rep, hw, hne, hemp⟩

/-- Witness for `claim_C6_cleanup_invariant`: the surviving entry of the
spec's example, an already-clean report, and a run of the driver. -/
theorem claim_C6_cleanup_invariant_witness :
    ("org-b", ["repo1"]).2 ≠ [] ∧
    cleanup_results [("x", ["y"])] = [("x", ["y"])] ∧
    ((main_model (fun _ => .error .exit1) none "o.json").writes = [] ∨
      ∃ rep, (main_model (fun _ => .error .exit1) none "o.json").writes = [("o.json", rep)] ∧
        rep ≠ [] ∧ ∀ p ∈ rep, p.2 ≠ []) :=
  ⟨claim_C6_cleanup_invariant.2.1 [("org-a", []), ("org-b", ["repo1"])]
      ("org-b", ["repo1"]) (by decide),
   claim_C6_cleanup_invariant.2.2.1 [("x", ["y"])] (by decide),
   claim_C6_cleanup_invariant.2.2.2 (fun _ => .error .exit1) none "o.json"⟩

/-- C7: a missing credential environment variable, and likewise any
credential beginning with the fine-grained-token prefix `github_pat_`,
kills the program with exit code 1 before any network call is made
(`get_token()` is `make_request`'s default argument, evaluated at module
import): no endpoint is ever requested and nothing is written. -/
theorem claim_C7_token_guard :
    (∀ (fetch : String → Except Failure JVal) (argOrgs : Option (List String))
        (path : String),
      program_run none fetch argOrgs path = ⟨[], [], .error .exit1⟩) ∧
    (∀ (s : String) (fetch : String → Except Failure JVal)
        (argOrgs : Option (List String)) (path : String),
      startswith s "github_pat_" = true →
      program_run (some s) fetch argOrgs path = ⟨[], [], .error .exit1⟩) := by
  constructor
  · intro fetch argOrgs path
    rfl
  · intro s fetch argOrgs path h
    have hne : s ≠ "" := by
      intro he
      subst he
      exact absurd h (by decide)
    unfold program_run get_token
    simp only [if_neg hne, if_pos h]

/-- Witness for `claim_C7_token_guard` at an absent credential and at a
concrete fine-grained token. -/
theorem claim_C7_token_guard_witness :
    program_run none (fun _ => .ok (.arr [])) none "o.json" = ⟨[], [], .error .exit1⟩ ∧
    startswith "github_pat_abc" "github_pat_" = true ∧
    program_run (some "github_pat_abc") (fun _ => .ok (.arr [])) none "o.json" =
      ⟨[], [], .error .exit1⟩ :=
  ⟨claim_C7_token_guard.1 (fun _ => .ok (.arr [])) none "o.json",
   by decide,
   claim_C7_token_guard.2 "github_pat_abc" (fun _ => .ok (.arr [])) none "o.json" (by decide)⟩
